import Mathlib

/-!
# Verification of the recipe_scraper repository

Shallow embedding of the crawl-control and extraction engine of the
`recipe_scraper` repository (files `scrapermod.py`, `scraper.py`,
`scraperlist_of_recipes.py`) together with proofs settling the frozen
claims about its specification.

External collaborators (the HTTP transport `requests`, the HTML tree
library BeautifulSoup, `json.loads`, `urllib.parse`) are modelled at
their interface boundary: fetched pages are records holding exactly the
data the scraper queries from the DOM (anchor `href`s, JSON-LD script
parse results, selector hits), the HTTP GET is an explicit outcome
parameter, and wall-clock instants are rationals passed explicitly.
Python exceptions that the scraper does not catch are modelled with
`Except Unit`; `try`/`except` blocks become `match`es on those values.
-/

namespace RecipeScraper

/-! ## Python string primitives (char-list based, kernel-reducible) -/

/-- Whitespace test used by Python `str.strip()` (ASCII subset). -/
def isWS (c : Char) : Bool := c = ' ' ∨ c = '\t' ∨ c = '\n' ∨ c = '\r'

/-- `str.strip()`: drop leading and trailing whitespace. -/
def stripList (l : List Char) : List Char :=
  ((l.dropWhile isWS).reverse.dropWhile isWS).reverse

/-- Python `s.strip()`. -/
def pyStrip (s : String) : String := ⟨stripList s.data⟩

/-- Python `s.replace('\n', ' ')`. -/
def nlToSpace (s : String) : String :=
  ⟨s.data.map (fun c => if c = '\n' then ' ' else c)⟩

/-- Python `s.lower()` (ASCII). -/
def lowerStr (s : String) : String := ⟨s.data.map Char.toLower⟩

/-- Substring test on char lists: `needle` occurs inside `hay`
(Python `needle in hay` for strings). -/
def subOf (needle : List Char) : List Char → Bool
  | [] => needle.isEmpty
  | c :: rest => needle.isPrefixOf (c :: rest) || subOf needle rest

/-- Python `needle in hay` for strings. -/
def strContains (hay needle : String) : Bool := subOf needle.data hay.data

/-- Python `s.startswith(p)`. -/
def startsW (s p : String) : Bool := p.data.isPrefixOf s.data

/-- Python `text.split('\n')` helper on char lists: split at each
newline, keeping empty pieces (as Python `str.split` with an explicit
separator does). -/
def splitNLAux (acc : List Char) : List Char → List (List Char)
  | [] => [acc.reverse]
  | c :: rest =>
      if c = '\n' then acc.reverse :: splitNLAux [] rest
      else splitNLAux (c :: acc) rest

/-- Python `text.split('\n')`. -/
def splitNL (s : String) : List String := (splitNLAux [] s.data).map (⟨·⟩)

/-! ## URL parsing (model of the `urllib.parse` collaborator)

`urlparse`/`urljoin` are standard-library collaborators (out of scope
per the spec); we model the fragments the scraper uses: the scheme is
the text before `"://"`, the netloc the text between `"://"` and the
next `/`, `?` or `#`, the path what follows the netloc.  Relative
references are resolved by directory concatenation; the claims below
only exercise absolute and root-relative references, on which this
model agrees with `urllib`. -/

/-- Split a URL at the first occurrence of `"://"`. -/
def splitScheme : List Char → Option (List Char × List Char)
  | [] => none
  | c :: rest =>
      if (':' :: '/' :: '/' :: []).isPrefixOf (c :: rest) then
        some ([], (c :: rest).drop 3)
      else
        match splitScheme rest with
        | some (pre, post) => some (c :: pre, post)
        | none => none

/-- `urlparse(url).scheme` (for URLs written with `"://"`). -/
def schemeOf (url : String) : String :=
  match splitScheme url.data with
  | some (pre, _) => ⟨pre⟩
  | none => ""

/-- Is `c` a character that ends the netloc part of a URL? -/
def netlocEnd (c : Char) : Bool := c = '/' ∨ c = '?' ∨ c = '#'

/-- `urlparse(url).netloc`. -/
def netlocOf (url : String) : String :=
  match splitScheme url.data with
  | some (_, rest) => ⟨rest.takeWhile (fun c => !netlocEnd c)⟩
  | none => ""

/-- `urlparse(url).path`. -/
def pathOf (url : String) : String :=
  match splitScheme url.data with
  | some (_, rest) =>
      ⟨(rest.dropWhile (fun c => !netlocEnd c)).takeWhile
        (fun c => !(c = '?' ∨ c = '#'))⟩
  | none => ⟨url.data.takeWhile (fun c => !(c = '?' ∨ c = '#'))⟩

/-- Directory part of a URL (text up to and including the last `/`). -/
def dirOf (base : String) : String :=
  ⟨(base.data.reverse.dropWhile (fun c => c ≠ '/')).reverse⟩

/-- `urljoin(base, href)`: absolute references are kept, root-relative
references are attached to the base scheme and netloc, other relative
references are resolved against the base directory. -/
def urljoinModel (base href : String) : String :=
  if (splitScheme href.data).isSome then href
  else if startsW href "/" then
    schemeOf base ++ "://" ++ netlocOf base ++ href
  else dirOf base ++ href

/-! ## JSON values (result of the `json.loads` collaborator) -/

/-- A generic JSON value, as produced by `json.loads`. -/
inductive Json where
  | null
  | bool (b : Bool)
  | num (n : Int)
  | str (s : String)
  | arr (items : List Json)
  | obj (fields : List (String × Json))

/-- Python truthiness of a JSON value (`if data:`). -/
def Json.truthy : Json → Bool
  | .null => false
  | .bool b => b
  | .num n => n != 0
  | .str s => !s.isEmpty
  | .arr items => !items.isEmpty
  | .obj fields => !fields.isEmpty

/-- Truthiness of `item.get(key)` (Python `None` is falsy). -/
def truthyOpt : Option Json → Bool
  | none => false
  | some j => j.truthy

/-- `item.get('@type') == t` for a JSON object with fields `fs`
(only a string value compares equal to a string literal). -/
def isTypeStr (fs : List (String × Json)) (t : String) : Bool :=
  match fs.lookup "@type" with
  | some (.str s) => s = t
  | _ => false

/-- Marker for an uncaught Python exception escaping the modelled code. -/
abbrev PyResult (α : Type) := Except Unit α

/-! ## `scrapermod.py` — rate limiter and HTTP wrapper

`domain_timers` is the Host Timer State: a map from normalized domain
to the wall-clock instant recorded for its last returned GET.  The
HTTP GET itself is an external collaborator; `make_request` receives
its outcome (`none` = `requests.get` raised) plus the two wall-clock
instants the code samples (`now` at entry, `fetchEnd` when the GET
returns). -/

namespace ScraperMod

open RecipeScraper

/-- Host Timer State: `domain_timers` dict. -/
abbrev Timers := String → Option ℚ

/-- A response of the `requests` collaborator, with the body left
generic (the scraper only reads `res.text`, handed on to BeautifulSoup,
whose query results are what the page types below hold). -/
structure HttpResponse (β : Type) where
  status : Nat
  contentType : String
  body : β

/-- `normalize_domain(url)`: netloc, lower-cased, leading `"www."`
stripped. -/
def normalize_domain (url : String) : String :=
  let domain := lowerStr (netlocOf url)
  if startsW domain "www." then ⟨domain.data.drop 4⟩ else domain

/-- The instant at which `make_request` proceeds past its rate-limit
sleep: if the domain has a recorded timer and less than `rateLimit`
has elapsed since it, the caller sleeps for the remaining delta. -/
def acquireGrant (timers : Timers) (rateLimit : ℚ) (domain : String)
    (now : ℚ) : ℚ :=
  match timers domain with
  | none => now
  | some t => if now - t < rateLimit then now + (rateLimit - (now - t)) else now

/-- `domain_timers[domain] = time.time()` after the GET returns. -/
def updateTimer (timers : Timers) (domain : String) (t : ℚ) : Timers :=
  fun h => if h = domain then some t else timers h

/-- `res.raise_for_status()` raises exactly for 4xx/5xx statuses. -/
def raiseForStatusFails (status : Nat) : Bool := 400 ≤ status ∧ status < 600

/-- Outcome of one `make_request(url)` call. -/
structure MROut (β : Type) where
  result : Option (HttpResponse β)
  timers : Timers
  grant : ℚ

/-- `make_request(url)` of `scrapermod.py`: rate-limit sleep, GET
(outcome supplied), timer write after the GET returns, then
`raise_for_status` and the `'text/html' in Content-Type` check; every
failure is caught and turned into `None`. -/
def make_request (timers : Timers) (rateLimit : ℚ) (url : String) (now : ℚ)
    (outcome : Option (HttpResponse β)) (fetchEnd : ℚ) : MROut β :=
  let domain := normalize_domain url
  let grant := acquireGrant timers rateLimit domain now
  match outcome with
  | none => { result := none, timers := timers, grant := grant }
  | some res =>
      let timers' := updateTimer timers domain fetchEnd
      if raiseForStatusFails res.status then
        { result := none, timers := timers', grant := grant }
      else if strContains (lowerStr res.contentType) "text/html" then
        { result := some res, timers := timers', grant := grant }
      else
        { result := none, timers := timers', grant := grant }

/-! ### `get_links` — Link Discoverer of `scrapermod.py`

The fetched document is reduced to the list of `href` attributes of
its `<a href=...>` tags in document order.  `links` is a Python `set`
whose elements are always inserted simultaneously into the global
`seen_urls` set; both are modelled as duplicate-free lists (insertion
order), which is faithful for membership, emptiness and size. -/

/-- A fetched seed document: `href` values of its anchors. -/
structure LinkPage where
  anchors : List String

/-- Keyword list of `get_links`. -/
def linkKeywords : List String :=
  ["recipe", "recipes", "cook", "dish", "receipt", "food"]

/-- Scheme of `href` prefixes skipped before URL resolution. -/
def skippedSchemes : List String := ["javascript:", "mailto:", "tel:"]

/-- Loop body of `get_links`: iterate the anchors, filtering and
deduplicating against `seen`; break once `maxLinks` links exist. -/
def getLinksLoop (siteUrl baseDomain : String) (maxLinks : Nat) :
    List String → List String → List String → List String × List String
  | [], links, seen => (links, seen)
  | a :: rest, links, seen =>
      let href := pyStrip a
      if href = "" ∨ (skippedSchemes.any (fun p => startsW href p)) then
        getLinksLoop siteUrl baseDomain maxLinks rest links seen
      else
        let fullUrl := urljoinModel siteUrl href
        if ¬(schemeOf fullUrl = "http" ∨ schemeOf fullUrl = "https") then
          getLinksLoop siteUrl baseDomain maxLinks rest links seen
        else if normalize_domain fullUrl ≠ baseDomain then
          getLinksLoop siteUrl baseDomain maxLinks rest links seen
        else
          let path := lowerStr (pathOf fullUrl)
          let st :=
            if linkKeywords.any (fun kw => strContains path kw) then
              if fullUrl ∈ seen then (links, seen)
              else (links ++ [fullUrl], seen ++ [fullUrl])
            else (links, seen)
          if maxLinks ≤ st.1.length then st
          else getLinksLoop siteUrl baseDomain maxLinks rest st.1 st.2

/-- `get_links(site_url, max_links)`: returns the discovered links and
the updated Seen-URL Set (`seen_urls` global).  A failed fetch yields
`[]` with the set untouched. -/
def get_links (siteUrl : String) (fetched : Option LinkPage) (maxLinks : Nat)
    (seen : List String) : List String × List String :=
  match fetched with
  | none => ([], seen)
  | some page =>
      getLinksLoop siteUrl (normalize_domain siteUrl) maxLinks
        page.anchors [] seen

/-- The URL `get_links` resolves for anchor `a`. -/
def resolvedOf (siteUrl a : String) : String := urljoinModel siteUrl (pyStrip a)

/-- The acceptance conditions of the `get_links` loop for anchor `a`
(all the filters up to and including the keyword test pass). -/
def accepted (siteUrl baseDomain a : String) : Prop :=
  ¬(pyStrip a = "" ∨ skippedSchemes.any (fun p => startsW (pyStrip a) p) = true) ∧
  (schemeOf (resolvedOf siteUrl a) = "http" ∨
    schemeOf (resolvedOf siteUrl a) = "https") ∧
  normalize_domain (resolvedOf siteUrl a) = baseDomain ∧
  linkKeywords.any
    (fun kw => strContains (lowerStr (pathOf (resolvedOf siteUrl a))) kw) = true

/-! ### `parse_recipe` — Recipe Extractor of `scrapermod.py`

A fetched detail page is reduced to the parse results of its
`application/ld+json` script payloads in document order; `.error ()`
stands for a payload on which `json.loads` raised (or whose
`script.string` was `None`) — the per-script `except Exception`
swallows those and moves on.  The `recipe` dict is threaded through
the scripts and their items, exactly as in the source: field values
are stored verbatim (Python is duck-typed, so `name` and
`ingredients` hold whatever JSON value the block supplied). -/

/-- A fetched detail page: JSON-LD script parse outcomes. -/
structure SPage where
  blocks : List (PyResult Json)

/-- The `recipe` dict of `parse_recipe`. -/
structure SRecipe where
  sourceUrl : String
  name : Json
  ingredients : Json
  instructions : List Json

/-- Normalisation of one JSON-LD payload into the `items` list:
a JSON list is taken as is, an object is unwrapped through `'@graph'`
when that key is present, anything else is wrapped as a singleton.
(When `'@graph'` holds a non-list the Python loop finds no dict items
or raises a caught `TypeError`; either way no item is extracted, which
the `[]` cases reproduce.) -/
def itemsOf : Json → List Json
  | .arr xs => xs
  | .obj fs =>
      match fs.lookup "@graph" with
      | some (.arr g) => g
      | some _ => []
      | none => [.obj fs]
  | j => [j]

/-- The inner steps loop shared by `scrapermod.py` (lines 179-187) and
`scraperlist_of_recipes.py` (lines 174-179, 188-193): keep dict steps
typed `HowToStep` (their `text` field, default `''`) and string steps;
skip everything else. -/
def stepsFromJson : List Json → List Json
  | [] => []
  | .obj fs :: rest =>
      if isTypeStr fs "HowToStep" then
        ((fs.lookup "text").getD (.str "")) :: stepsFromJson rest
      else stepsFromJson rest
  | .str s :: rest => .str s :: stepsFromJson rest
  | _ :: rest => stepsFromJson rest

/-- State update performed for one `Recipe`/`HowTo` item
(`scrapermod.py` lines 164-189): `name` from `name` or `headline` when
truthy, `ingredients` from `recipeIngredient` when truthy,
`instructions` rebuilt unconditionally. -/
def updateFromItem (r : SRecipe) (fs : List (String × Json)) : SRecipe :=
  let nameVal :=
    if truthyOpt (fs.lookup "name") then (fs.lookup "name").getD .null
    else (fs.lookup "headline").getD (.str "")
  let r1 := if nameVal.truthy then { r with name := nameVal } else r
  let ingVal := (fs.lookup "recipeIngredient").getD (.arr [])
  let r2 := if ingVal.truthy then { r1 with ingredients := ingVal } else r1
  let instrs : List Json :=
    match (fs.lookup "recipeInstructions").getD (.arr []) with
    | .str s => [.str s]
    | .arr xs => stepsFromJson xs
    | _ => []
  { r2 with instructions := instrs }

/-- Loop over the items of one JSON-LD payload: update the recipe
state on each typed item and return it as soon as both
`recipe['ingredients']` and `recipe['instructions']` are truthy. -/
def parseItemsLoop (r : SRecipe) : List Json → Option SRecipe × SRecipe
  | [] => (none, r)
  | item :: rest =>
      match item with
      | .obj fs =>
          if isTypeStr fs "Recipe" ∨ isTypeStr fs "HowTo" then
            let r' := updateFromItem r fs
            if r'.ingredients.truthy && !r'.instructions.isEmpty then (some r', r')
            else parseItemsLoop r' rest
          else parseItemsLoop r rest
      | _ => parseItemsLoop r rest

/-- Loop over the script payloads; malformed payloads are skipped
(the per-script `except`), the recipe state persists across payloads. -/
def parseBlocksLoop (r : SRecipe) : List (PyResult Json) → Option SRecipe
  | [] => none
  | .error _ :: rest => parseBlocksLoop r rest
  | .ok data :: rest =>
      match parseItemsLoop r (itemsOf data) with
      | (some res, _) => some res
      | (none, r') => parseBlocksLoop r' rest

/-- `parse_recipe(url)` of `scrapermod.py`: `None` on fetch failure,
otherwise scan the JSON-LD payloads and return the recipe only when a
payload run reaches truthy ingredients and a non-empty instruction
list; `None` when no payload does. -/
def parse_recipe (url : String) (fetched : Option SPage) : Option SRecipe :=
  match fetched with
  | none => none
  | some page =>
      parseBlocksLoop
        { sourceUrl := url, name := .str "", ingredients := .arr []
          instructions := [] } page.blocks

/-! ### `main()` — Crawl Orchestrator of `scrapermod.py`

The link discovery and extraction collaborators are passed as
functions (their composition with the fetch outcomes); the accumulator
`all_recipes` is threaded through the two loops with the cap checks of
lines 236-237 and 254-255. -/

/-- Inner per-link loop of `main()`: break when the cap is reached,
otherwise extract and append on success. -/
def processLinks (maxTotal : Nat) (parseF : String → Option SRecipe)
    (acc : List SRecipe) : List String → List SRecipe
  | [] => acc
  | l :: ls =>
      if maxTotal ≤ acc.length then acc
      else
        let acc' :=
          match parseF l with
          | some r => acc ++ [r]
          | none => acc
        processLinks maxTotal parseF acc' ls

/-- Outer per-site loop of `main()`: process each site's links, break
out of the run once the cap is reached. -/
def processSites (maxTotal : Nat) (linksF : String → List String)
    (parseF : String → Option SRecipe) (acc : List SRecipe) :
    List String → List SRecipe
  | [] => acc
  | s :: ss =>
      let acc' := processLinks maxTotal parseF acc (linksF s)
      if maxTotal ≤ acc'.length then acc'
      else processSites maxTotal linksF parseF acc' ss

/-- `main()` accumulation: the final `all_recipes` list handed to
`save_csv` / `save_json` / `save_jsonl`. -/
def mainAccum (maxTotal : Nat) (linksF : String → List String)
    (parseF : String → Option SRecipe) (sites : List String) : List SRecipe :=
  processSites maxTotal linksF parseF [] sites

end ScraperMod

/-! ## `scraper.py` — the earlier variant

Its `get_links` resolves only root-relative `href`s, keeps a link when
the string `'recipe'` occurs in the lower-cased URL **and** the seed's
raw netloc occurs as a substring of the URL (`domain in href`), with no
Seen-URL Set; its `parse_recipe` reads only the first JSON-LD script,
accepts only `@type == 'Recipe'`, and returns the record when
ingredients or instructions are truthy. -/

namespace Scraper

open RecipeScraper

/-- Loop body of `get_links` of `scraper.py` (lines 68-75). -/
def getLinksLoop (domain : String) (maxLinks : Nat) :
    List String → List String → List String
  | [], links => links
  | a :: rest, links =>
      let href := if startsW a "/" then "https://" ++ domain ++ a else a
      let links' :=
        if strContains (lowerStr href) "recipe" && strContains href domain then
          if href ∈ links then links else links ++ [href]
        else links
      if maxLinks ≤ links'.length then links'
      else getLinksLoop domain maxLinks rest links'

/-- `get_links(site_url, max_links)` of `scraper.py`. -/
def get_links (siteUrl : String) (fetched : Option ScraperMod.LinkPage)
    (maxLinks : Nat) : List String :=
  match fetched with
  | none => []
  | some page => getLinksLoop (netlocOf siteUrl) maxLinks page.anchors []

/-- `next((i for i in data if i.get('@type') == 'Recipe'), {})`:
first dict item typed `Recipe`, default `{}`; `.get` on a non-dict item
raises (`AttributeError`, caught by the enclosing `except`). -/
def findRecipeItem : List Json → PyResult Json
  | [] => .ok (.obj [])
  | .obj fs :: rest =>
      if isTypeStr fs "Recipe" then .ok (.obj fs) else findRecipeItem rest
  | _ :: _ => .error ()

/-- Field extraction of `parse_recipe` of `scraper.py` (lines 83-96)
from the first JSON-LD parse outcome: on any exception the fields keep
their initial values (`''`, `[]`, `[]`). -/
def parseFields (block : Option (PyResult Json)) : Json × Json × List Json :=
  let dflt : Json × Json × List Json := (.str "", .arr [], [])
  match block with
  | none => dflt
  | some (.error _) => dflt
  | some (.ok data) =>
      let data2 := match data with
        | .arr xs => findRecipeItem xs
        | d => .ok d
      match data2 with
      | .error _ => dflt
      | .ok (.obj fs) =>
          if isTypeStr fs "Recipe" then
            let name := (fs.lookup "name").getD (.str "")
            let ingredients := (fs.lookup "recipeIngredient").getD (.arr [])
            let instrs : List Json :=
              match (fs.lookup "recipeInstructions").getD (.arr []) with
              | .arr steps =>
                  steps.map (fun s =>
                    match s with
                    | .obj sf => (sf.lookup "text").getD (.str "")
                    | x => x)
              | _ => []
            (name, ingredients, instrs)
          else dflt
      | .ok _ => dflt

/-- `parse_recipe(url)` of `scraper.py`: the record is returned iff
`recipe['ingredients'] or recipe['instructions']` is truthy. -/
def parse_recipe (url : String)
    (fetched : Option (Option (PyResult Json))) : Option ScraperMod.SRecipe :=
  match fetched with
  | none => none
  | some block =>
      let f := parseFields block
      if f.2.1.truthy || !f.2.2.isEmpty then
        some { sourceUrl := url, name := f.1, ingredients := f.2.1
               instructions := f.2.2 }
      else none

end Scraper

/-! ## `scraperlist_of_recipes.py` — `extract_recipe_data`

The richest extractor: name, ingredients and instructions each first
try the **first** JSON-LD script of the page, then fall back to
heuristic selectors **independently per field**.  A fetched detail
page is reduced to what the function queries: the first script's parse
outcome, the `h1` text, the `og:title` content, and the per-selector
`select_one` results for the fixed ingredient- and instruction-selector
lists (one entry per selector, in the source's order).

`except (json.JSONDecodeError, TypeError)` only covers `json.loads`
failures; an `AttributeError` from `.get`/`.strip` on an unexpected
JSON shape propagates out of the function, which the `.error` results
model. -/

namespace ScraperList

open RecipeScraper

/-- A selector hit: the `get_text(strip=True)` values of the
container's `li`/`p` descendants (in document order, possibly `''`,
`[]` when there are none) and the container's
`get_text('\n', strip=True)`. -/
structure HContainer where
  items : List String
  raw : String

/-- A fetched detail page, reduced to the queried data. -/
structure LRPage where
  script : Option (PyResult Json)
  h1 : Option String
  ogTitle : Option String
  ingredientSel : List (Option HContainer)
  instructionSel : List (Option HContainer)

/-- The finalized `recipe_data` dict (post-cleanup). -/
structure LRecipe where
  name : String
  ingredients : List String
  instructions : List String
  sourceUrl : String

/-- `[ing.strip() for ing in ingredients]`: `.strip()` on a non-string
element raises (`AttributeError`, uncaught). -/
def stripJsonList : List Json → PyResult (List String)
  | [] => .ok []
  | .str s :: rest => (stripJsonList rest).map (fun l => pyStrip s :: l)
  | _ :: _ => .error ()

/-- Name extraction from the structured data (lines 87-101): `some v`
means `recipe_data['name']` was assigned `v`. -/
def nameFromItems : List Json → PyResult (Option Json)
  | [] => .ok none
  | .obj fs :: rest =>
      if isTypeStr fs "Recipe" && truthyOpt (fs.lookup "name") then
        .ok (some ((fs.lookup "name").getD .null))
      else nameFromItems rest
  | _ :: _ => .error ()

/-- Structured-data name section of `extract_recipe_data`. -/
def nameStructured (block : Option (PyResult Json)) : PyResult (Option Json) :=
  match block with
  | none => .ok none
  | some (.error _) => .ok none
  | some (.ok data) =>
      match data with
      | .arr items => nameFromItems items
      | .obj fs =>
          if isTypeStr fs "Recipe" then
            .ok (some ((fs.lookup "name").getD (.str "")))
          else .ok none
      | _ => .ok none

/-- Heuristic name fallback (lines 104-111): `h1` text when an `h1`
tag exists, else the `og:title` content, applied only when the current
name is falsy. -/
def applyNameFallback (page : LRPage) (n : Json) : Json :=
  if n.truthy then n
  else
    match page.h1 with
    | some t => .str (pyStrip t)
    | none =>
        match page.ogTitle with
        | some c => .str (pyStrip c)
        | none => n

/-- Ingredients from the items of a JSON-LD list payload
(lines 118-127): first `Recipe` item with truthy `recipeIngredient`;
`[]` means the field was left at its initial `[]`. -/
def ingFromItems : List Json → PyResult (List String)
  | [] => .ok []
  | .obj fs :: rest =>
      if isTypeStr fs "Recipe" && truthyOpt (fs.lookup "recipeIngredient") then
        match (fs.lookup "recipeIngredient").getD .null with
        | .arr ings => stripJsonList ings
        | _ => .ok []
      else ingFromItems rest
  | _ :: _ => .error ()

/-- Structured-data ingredients section (lines 115-133). -/
def ingSectionStructured (block : Option (PyResult Json)) :
    PyResult (List String) :=
  match block with
  | none => .ok []
  | some (.error _) => .ok []
  | some (.ok data) =>
      match data with
      | .arr items => ingFromItems items
      | .obj fs =>
          if isTypeStr fs "Recipe" then
            match (fs.lookup "recipeIngredient").getD (.arr []) with
            | .arr ings => stripJsonList ings
            | _ => .ok []
          else .ok []
      | _ => .ok []

/-- Instructions from the items of a JSON-LD list payload
(lines 169-183). -/
def insFromItems : List Json → PyResult (List Json)
  | [] => .ok []
  | .obj fs :: rest =>
      if isTypeStr fs "Recipe" && truthyOpt (fs.lookup "recipeInstructions") then
        match (fs.lookup "recipeInstructions").getD .null with
        | .arr steps => .ok (ScraperMod.stepsFromJson steps)
        | _ => .ok []
      else insFromItems rest
  | _ :: _ => .error ()

/-- Structured-data instructions section (lines 166-198). -/
def insSectionStructured (block : Option (PyResult Json)) :
    PyResult (List Json) :=
  match block with
  | none => .ok []
  | some (.error _) => .ok []
  | some (.ok data) =>
      match data with
      | .arr items => insFromItems items
      | .obj fs =>
          if isTypeStr fs "Recipe" then
            match (fs.lookup "recipeInstructions").getD (.arr []) with
            | .arr steps => .ok (ScraperMod.stepsFromJson steps)
            | .str s => .ok [.str s]
            | _ => .ok []
          else .ok []
      | _ => .ok []

/-- Text extraction from one selector hit (lines 146-158, 212-224):
non-empty `li`/`p` texts, else the container's raw text split on
newlines when non-empty. -/
def containerExtract (c : HContainer) : List String :=
  let fromItems := c.items.filter (fun t => !t.isEmpty)
  if !fromItems.isEmpty then fromItems
  else if !c.raw.isEmpty then splitNL c.raw else []

/-- The selector fallback loop (lines 143-162, 209-228): first
selector whose container yields a non-empty extraction wins. -/
def firstSelectorHit : List (Option HContainer) → List String
  | [] => []
  | none :: rest => firstSelectorHit rest
  | some c :: rest =>
      let e := containerExtract c
      if !e.isEmpty then e else firstSelectorHit rest

/-- The per-string cleanup `s.replace('\n', ' ').strip()` (lines
231-233). -/
def cleanStr (s : String) : String := pyStrip (nlToSpace s)

/-- Name cleanup (line 231): collapse, trim, fall back to the sentinel
when empty; `.replace` on a non-string name raises. -/
def cleanupName : Json → PyResult String
  | .str s =>
      .ok (let t := cleanStr s; if t.isEmpty then "Unknown Recipe Name" else t)
  | _ => .error ()

/-- Instruction cleanup (line 233): clean each string; `.replace` on a
non-string step raises. -/
def cleanupSteps : List Json → PyResult (List String)
  | [] => .ok []
  | .str s :: rest => (cleanupSteps rest).map (fun l => cleanStr s :: l)
  | _ :: _ => .error ()

/-- `extract_recipe_data(url)` of `scraperlist_of_recipes.py` for a
successfully fetched page (the `response is None or status != 200`
early return is handled by the caller-facing wrapper below). -/
def extractRecipeFromPage (url : String) (page : LRPage) : PyResult LRecipe :=
  match nameStructured page.script with
  | .error e => .error e
  | .ok nOpt =>
      let name0 := applyNameFallback page (nOpt.getD (.str ""))
      match ingSectionStructured page.script with
      | .error e => .error e
      | .ok si =>
          let ing := if si.isEmpty then firstSelectorHit page.ingredientSel
                     else si
          match insSectionStructured page.script with
          | .error e => .error e
          | .ok sSteps =>
              let ins : List Json :=
                if sSteps.isEmpty then
                  (firstSelectorHit page.instructionSel).map .str
                else sSteps
              match cleanupName name0 with
              | .error e => .error e
              | .ok nameClean =>
                  match cleanupSteps ins with
                  | .error e => .error e
                  | .ok insClean =>
                      .ok { name := nameClean
                            ingredients := ing.map cleanStr
                            instructions := insClean
                            sourceUrl := url }

/-- `extract_recipe_data(url)` including the fetch-failure early
return (lines 72-75): `none` page means `make_request` returned `None`
or a non-200 status. -/
def extract_recipe_data (url : String) (fetched : Option LRPage) :
    PyResult (Option LRecipe) :=
  match fetched with
  | none => .ok none
  | some page => (extractRecipeFromPage url page).map some

/-- Per-link accumulation loop of `scrape_and_save` (lines 318-344):
a record is kept only when its ingredients or instructions are
non-empty; a per-link exception is caught and skipped; the loop stops
at 100 recipes. -/
def scrapeAndSaveLinks (extractF : String → PyResult (Option LRecipe))
    (acc : List LRecipe) : List String → List LRecipe
  | [] => acc
  | l :: ls =>
      let acc' :=
        match extractF l with
        | .ok (some r) =>
            if !r.ingredients.isEmpty || !r.instructions.isEmpty then
              acc ++ [r]
            else acc
        | .ok none => acc
        | .error _ => acc
      if 100 ≤ acc'.length then acc'
      else scrapeAndSaveLinks extractF acc' ls

end ScraperList

/-! ## Concrete pages used by the counterexample and witness theorems -/

namespace Inputs

open RecipeScraper ScraperMod ScraperList

/-- A detail page whose only JSON-LD payload is a `Recipe` object with
a non-empty ingredient list, an **empty** instruction list, and whose
DOM carries an instruction container — a partial structured match plus
a heuristic instruction source. -/
def mixPage : LRPage :=
  { script := some (.ok (.obj [("@type", .str "Recipe"), ("name", .str "Cake"),
      ("recipeIngredient", .arr [.str "flour"]),
      ("recipeInstructions", .arr [])]))
    h1 := none, ogTitle := none
    ingredientSel := List.replicate 8 none
    instructionSel := some ⟨["Do it"], "Do it"⟩ :: List.replicate 8 none }

/-- A second partial-structured page (witness for the amended C1). -/
def mixPage2 : LRPage :=
  { script := some (.ok (.obj [("@type", .str "Recipe"), ("name", .str "Pie"),
      ("recipeIngredient", .arr [.str "egg", .str "salt"]),
      ("recipeInstructions", .arr [])]))
    h1 := none, ogTitle := none
    ingredientSel := List.replicate 8 none
    instructionSel := some ⟨["Whisk", "Bake"], "Whisk\nBake"⟩ ::
      List.replicate 8 none }

/-- A detail page whose JSON-LD `Recipe` has ingredients and
instructions but neither `name` nor `headline`. -/
def noNamePage : SPage :=
  ⟨[.ok (.obj [("@type", .str "Recipe"),
      ("recipeIngredient", .arr [.str "x"]),
      ("recipeInstructions", .arr [.str "y"])])]⟩

/-- A complete structured detail page (witnesses). -/
def fullPage : SPage :=
  ⟨[.ok (.obj [("@type", .str "Recipe"), ("name", .str "Lemon Cake"),
      ("recipeIngredient", .arr [.str "200g flour", .str "2 eggs"]),
      ("recipeInstructions", .arr [.str "Mix.", .str "Bake."])])]⟩

/-- A page whose structured ingredient list contains a
whitespace-only entry (empty after trimming). -/
def wsPage : LRPage :=
  { script := some (.ok (.obj [("@type", .str "Recipe"), ("name", .str "P"),
      ("recipeIngredient", .arr [.str "flour", .str " \n "]),
      ("recipeInstructions", .arr [.str "Mix"])]))
    h1 := none, ogTitle := none
    ingredientSel := List.replicate 8 none
    instructionSel := List.replicate 9 none }

/-- A structured detail page whose ingredient string carries an
embedded newline. -/
def nlPage : SPage :=
  ⟨[.ok (.obj [("@type", .str "Recipe"), ("name", .str "N"),
      ("recipeIngredient", .arr [.str "a\nb"]),
      ("recipeInstructions", .arr [.str "step"])])]⟩

/-- A heuristic-only page: no script, an `h1`, one ingredient
container (C8 witness). -/
def heurPage : LRPage :=
  { script := none
    h1 := some "Tarte"
    ogTitle := none
    ingredientSel := some ⟨["i1"], "i1"⟩ :: List.replicate 7 none
    instructionSel := List.replicate 9 none }

/-- A seed document with two same-domain recipe anchors (C4). -/
def twoLinkPage : LinkPage :=
  ⟨["http://example.com/recipe1", "http://example.com/recipe2"]⟩

/-- A seed document with one same-domain recipe anchor. -/
def oneLinkPage : LinkPage :=
  ⟨["http://example.com/recipes/42-lemon-cake"]⟩

/-- A seed document whose single anchor points at a foreign host whose
name merely **contains** the seed host as a substring (C5). -/
def foreignPage : LinkPage :=
  ⟨["https://notexample.com/recipes"]⟩

end Inputs

/-! ## Helper lemmas -/

namespace ScraperMod

theorem make_request_grant (T : Timers) (R : ℚ) (url : String) (now : ℚ)
    (o : Option (HttpResponse β)) (e : ℚ) :
    (make_request T R url now o e).grant
      = acquireGrant T R (normalize_domain url) now := by
  unfold make_request
  cases o with
  | none => rfl
  | some r =>
      dsimp only
      split
      · rfl
      · split <;> rfl

theorem make_request_timers_some (T : Timers) (R : ℚ) (url : String)
    (now : ℚ) (r : HttpResponse β) (e : ℚ) :
    (make_request T R url now (some r) e).timers
      = updateTimer T (normalize_domain url) e := by
  unfold make_request
  dsimp only
  split
  · rfl
  · split <;> rfl

theorem make_request_result_status (T : Timers) (R : ℚ) (url : String)
    (now : ℚ) (r : HttpResponse β) (e : ℚ) (h1 : 400 ≤ r.status)
    (h2 : r.status < 600) :
    (make_request T R url now (some r) e).result = none := by
  unfold make_request
  dsimp only
  have hb : raiseForStatusFails r.status = true := by
    simp [raiseForStatusFails]; omega
  rw [hb]
  simp

theorem make_request_result_ctype (T : Timers) (R : ℚ) (url : String)
    (now : ℚ) (r : HttpResponse β) (e : ℚ)
    (h : strContains (lowerStr r.contentType) "text/html" = false) :
    (make_request T R url now (some r) e).result = none := by
  unfold make_request
  dsimp only
  split
  · rfl
  · rw [h]
    simp

theorem parseItemsLoop_some :
    ∀ (items : List Json) (r res r' : SRecipe),
      parseItemsLoop r items = (some res, r') →
      res.ingredients.truthy = true ∧ res.instructions ≠ [] := by
  intro items
  induction items with
  | nil =>
      intro r res r' h
      simp [parseItemsLoop] at h
  | cons item rest ih =>
      intro r res r' h
      cases item with
      | obj fs =>
          rw [parseItemsLoop] at h
          split at h
          · dsimp only at h
            split at h
            · rename_i hg
              rw [Prod.mk.injEq] at h
              obtain ⟨h1, h2⟩ := h
              simp only [Bool.and_eq_true] at hg
              obtain ⟨hi, hni⟩ := hg
              cases Option.some.inj h1
              refine ⟨hi, ?_⟩
              intro hnil
              rw [hnil] at hni
              simp at hni
            · exact ih _ _ _ h
          · exact ih _ _ _ h
      | null => exact ih _ _ _ h
      | bool b => exact ih _ _ _ h
      | num n => exact ih _ _ _ h
      | str s => exact ih _ _ _ h
      | arr xs => exact ih _ _ _ h

theorem parseBlocksLoop_some :
    ∀ (blocks : List (PyResult Json)) (r res : SRecipe),
      parseBlocksLoop r blocks = some res →
      res.ingredients.truthy = true ∧ res.instructions ≠ [] := by
  intro blocks
  induction blocks with
  | nil =>
      intro r res h
      simp [parseBlocksLoop] at h
  | cons b rest ih =>
      intro r res h
      cases b with
      | error e => exact ih _ _ h
      | ok data =>
          rw [parseBlocksLoop] at h
          rcases heq : parseItemsLoop r (itemsOf data) with ⟨o, r'⟩
          rw [heq] at h
          cases o with
          | some res0 =>
              cases h
              exact parseItemsLoop_some _ _ _ _ heq
          | none => exact ih _ _ h

theorem parse_recipe_some (url : String) (fetched : Option SPage)
    (r : SRecipe) (h : parse_recipe url fetched = some r) :
    r.ingredients.truthy = true ∧ r.instructions ≠ [] := by
  cases fetched with
  | none => simp [parse_recipe] at h
  | some page => exact parseBlocksLoop_some _ _ _ h

theorem getLinksLoop_seen_mono (u b : String) (m : Nat) :
    ∀ (as links seen : List String) (x : String), x ∈ seen →
      x ∈ (getLinksLoop u b m as links seen).2 := by
  intro as
  induction as with
  | nil => intro links seen x hx; simpa [getLinksLoop] using hx
  | cons a rest ih =>
      intro links seen x hx
      rw [getLinksLoop]
      dsimp only
      repeat' split
      all_goals first
        | exact hx
        | exact List.mem_append_left _ hx
        | exact ih _ _ _ hx
        | exact ih _ _ _ (List.mem_append_left _ hx)

theorem getLinksLoop_no_break_mem (u b : String) (m : Nat) :
    ∀ (as links seen : List String),
      (getLinksLoop u b m as links seen).1.length < m →
      ∀ a' ∈ as, accepted u b a' →
        resolvedOf u a' ∈ (getLinksLoop u b m as links seen).2 := by
  intro as
  induction as with
  | nil => intro links seen _ a' ha'; simp at ha'
  | cons a rest ih =>
      intro links seen hlen a' ha' hacc
      rw [getLinksLoop] at hlen ⊢
      dsimp only at hlen ⊢
      rcases List.mem_cons.mp ha' with rfl | ha'
      · simp only [accepted, resolvedOf] at hacc
        obtain ⟨hA1, hA2, hA3, hA4⟩ := hacc
        simp only [resolvedOf]
        rw [if_neg hA1] at hlen ⊢
        rw [if_neg (not_not_intro hA2)] at hlen ⊢
        rw [if_neg (not_not_intro hA3)] at hlen ⊢
        rw [if_pos hA4] at hlen ⊢
        by_cases h5 : urljoinModel u (pyStrip a') ∈ seen
        · rw [if_pos h5] at hlen ⊢
          dsimp only at hlen ⊢
          split at hlen
          · dsimp only at hlen
            omega
          · rw [if_neg (by assumption)]
            exact getLinksLoop_seen_mono u b m rest links seen _ h5
        · rw [if_neg h5] at hlen ⊢
          dsimp only at hlen ⊢
          split at hlen
          · dsimp only at hlen
            omega
          · rw [if_neg (by assumption)]
            refine getLinksLoop_seen_mono u b m rest _ _ _ ?_
            exact List.mem_append_right _ (List.mem_singleton.mpr rfl)
      · by_cases h1 : (pyStrip a = "" ∨
            (skippedSchemes.any fun p => startsW (pyStrip a) p) = true)
        · rw [if_pos h1] at hlen ⊢
          exact ih _ _ hlen a' ha' hacc
        · rw [if_neg h1] at hlen ⊢
          by_cases h2 : ¬(schemeOf (urljoinModel u (pyStrip a)) = "http" ∨
              schemeOf (urljoinModel u (pyStrip a)) = "https")
          · rw [if_pos h2] at hlen ⊢
            exact ih _ _ hlen a' ha' hacc
          · rw [if_neg h2] at hlen ⊢
            by_cases h3 : normalize_domain (urljoinModel u (pyStrip a)) ≠ b
            · rw [if_pos h3] at hlen ⊢
              exact ih _ _ hlen a' ha' hacc
            · rw [if_neg h3] at hlen ⊢
              by_cases h4 : (linkKeywords.any fun kw =>
                  strContains (lowerStr (pathOf (urljoinModel u (pyStrip a)))) kw) = true
              · rw [if_pos h4] at hlen ⊢
                by_cases h5 : urljoinModel u (pyStrip a) ∈ seen
                · rw [if_pos h5] at hlen ⊢
                  dsimp only at hlen ⊢
                  split at hlen
                  · dsimp only at hlen
                    omega
                  · rw [if_neg (by assumption)]
                    exact ih _ _ hlen a' ha' hacc
                · rw [if_neg h5] at hlen ⊢
                  dsimp only at hlen ⊢
                  split at hlen
                  · dsimp only at hlen
                    omega
                  · rw [if_neg (by assumption)]
                    exact ih _ _ hlen a' ha' hacc
              · rw [if_neg h4] at hlen ⊢
                dsimp only at hlen ⊢
                split at hlen
                · dsimp only at hlen
                  omega
                · rw [if_neg (by assumption)]
                  exact ih _ _ hlen a' ha' hacc

theorem getLinksLoop_suppressed (u b : String) (m : Nat) :
    ∀ (as seen : List String),
      (∀ a ∈ as, accepted u b a → resolvedOf u a ∈ seen) →
      getLinksLoop u b m as [] seen = ([], seen) := by
  intro as
  induction as with
  | nil => intro seen _; rfl
  | cons a rest ih =>
      intro seen h
      have htail : ∀ a' ∈ rest, accepted u b a' → resolvedOf u a' ∈ seen :=
        fun a' ha' => h a' (List.mem_cons_of_mem _ ha')
      rw [getLinksLoop]
      dsimp only
      by_cases h1 : (pyStrip a = "" ∨
          (skippedSchemes.any fun p => startsW (pyStrip a) p) = true)
      · rw [if_pos h1]
        exact ih seen htail
      · rw [if_neg h1]
        by_cases h2 : ¬(schemeOf (urljoinModel u (pyStrip a)) = "http" ∨
            schemeOf (urljoinModel u (pyStrip a)) = "https")
        · rw [if_pos h2]
          exact ih seen htail
        · rw [if_neg h2]
          by_cases h3 : normalize_domain (urljoinModel u (pyStrip a)) ≠ b
          · rw [if_pos h3]
            exact ih seen htail
          · rw [if_neg h3]
            by_cases h4 : (linkKeywords.any fun kw =>
                strContains (lowerStr (pathOf (urljoinModel u (pyStrip a)))) kw) = true
            · rw [if_pos h4]
              have hmem : urljoinModel u (pyStrip a) ∈ seen := by
                have hacc : accepted u b a := by
                  refine ⟨h1, not_not.mp h2, not_not.mp h3, h4⟩
                exact h a (List.mem_cons_self a rest) hacc
              rw [if_pos hmem]
              dsimp only
              split
              · rfl
              · exact ih seen htail
            · rw [if_neg h4]
              dsimp only
              split
              · rfl
              · exact ih seen htail

theorem getLinksLoop_links_domain (u b : String) (m : Nat) :
    ∀ (as links seen : List String),
      (∀ l ∈ links, normalize_domain l = b) →
      ∀ l ∈ (getLinksLoop u b m as links seen).1, normalize_domain l = b := by
  intro as
  induction as with
  | nil =>
      intro links seen h l hl
      exact h l (by simpa [getLinksLoop] using hl)
  | cons a rest ih =>
      intro links seen h l hl
      rw [getLinksLoop] at hl
      dsimp only at hl
      by_cases h1 : (pyStrip a = "" ∨
          (skippedSchemes.any fun p => startsW (pyStrip a) p) = true)
      · rw [if_pos h1] at hl
        exact ih _ _ h l hl
      · rw [if_neg h1] at hl
        by_cases h2 : ¬(schemeOf (urljoinModel u (pyStrip a)) = "http" ∨
            schemeOf (urljoinModel u (pyStrip a)) = "https")
        · rw [if_pos h2] at hl
          exact ih _ _ h l hl
        · rw [if_neg h2] at hl
          by_cases h3 : normalize_domain (urljoinModel u (pyStrip a)) ≠ b
          · rw [if_pos h3] at hl
            exact ih _ _ h l hl
          · rw [if_neg h3] at hl
            have hdom : normalize_domain (urljoinModel u (pyStrip a)) = b :=
              not_not.mp h3
            have h' : ∀ l' ∈ links ++ [urljoinModel u (pyStrip a)],
                normalize_domain l' = b := by
              intro l' hl'
              rcases List.mem_append.mp hl' with hl' | hl'
              · exact h l' hl'
              · rcases List.mem_singleton.mp hl' with rfl
                exact hdom
            by_cases h4 : (linkKeywords.any fun kw =>
                strContains (lowerStr (pathOf (urljoinModel u (pyStrip a)))) kw) = true
            · rw [if_pos h4] at hl
              by_cases h5 : urljoinModel u (pyStrip a) ∈ seen
              · rw [if_pos h5] at hl
                dsimp only at hl
                split at hl
                · exact h l hl
                · exact ih _ _ h l hl
              · rw [if_neg h5] at hl
                dsimp only at hl
                split at hl
                · exact h' l hl
                · exact ih _ _ h' l hl
            · rw [if_neg h4] at hl
              dsimp only at hl
              split at hl
              · exact h l hl
              · exact ih _ _ h l hl

theorem acquireGrant_update_self (T : Timers) (h : String) (t R now : ℚ) :
    acquireGrant (updateTimer T h t) R h now
      = if now - t < R then now + (R - (now - t)) else now := by
  simp [acquireGrant, updateTimer]

theorem processLinks_stop (N : Nat) (parseF : String → Option SRecipe)
    (acc : List SRecipe) (ls : List String) (h : N ≤ acc.length) :
    processLinks N parseF acc ls = acc := by
  cases ls with
  | nil => rfl
  | cons l ls => simp [processLinks, h]

theorem processLinks_length (N : Nat) (parseF : String → Option SRecipe) :
    ∀ (ls : List String) (acc : List SRecipe), acc.length ≤ N →
      (processLinks N parseF acc ls).length ≤ N := by
  intro ls
  induction ls with
  | nil => intro acc h; simpa [processLinks] using h
  | cons l ls ih =>
      intro acc h
      by_cases hc : N ≤ acc.length
      · simpa [processLinks, hc] using h
      · rw [processLinks, if_neg hc]
        cases hp : parseF l with
        | none => exact ih acc h
        | some r =>
            apply ih
            simp only [List.length_append, List.length_cons, List.length_nil]
            omega

theorem processSites_stop (N : Nat) (linksF : String → List String)
    (parseF : String → Option SRecipe) (acc : List SRecipe)
    (ss : List String) (h : N ≤ acc.length) :
    processSites N linksF parseF acc ss = acc := by
  cases ss with
  | nil => rfl
  | cons s ss =>
      rw [processSites, processLinks_stop N parseF acc _ h, if_pos h]

theorem processSites_length (N : Nat) (linksF : String → List String)
    (parseF : String → Option SRecipe) :
    ∀ (ss : List String) (acc : List SRecipe), acc.length ≤ N →
      (processSites N linksF parseF acc ss).length ≤ N := by
  intro ss
  induction ss with
  | nil => intro acc h; simpa [processSites] using h
  | cons s ss ih =>
      intro acc h
      rw [processSites]
      have h1 : (processLinks N parseF acc (linksF s)).length ≤ N :=
        processLinks_length N parseF _ acc h
      split
      · exact h1
      · exact ih _ h1

end ScraperMod

namespace ScraperList

theorem cleanupName_ok (j : Json) (s : String) (h : cleanupName j = .ok s) :
    s ≠ "" := by
  cases j with
  | str s0 =>
      rw [cleanupName] at h
      dsimp only at h
      cases Except.ok.inj h
      split
      · decide
      · rename_i hne
        intro hempty
        rw [hempty] at hne
        exact hne rfl
  | null => exact Except.noConfusion h
  | bool b => exact Except.noConfusion h
  | num n => exact Except.noConfusion h
  | arr xs => exact Except.noConfusion h
  | obj fs => exact Except.noConfusion h

theorem cleanupSteps_map_str :
    ∀ l : List String, cleanupSteps (l.map Json.str) = .ok (l.map cleanStr) := by
  intro l
  induction l with
  | nil => rfl
  | cons s rest ih => simp [cleanupSteps, ih, Except.map]

/-- Inversion of a successful `extract_recipe_data` run: the section
results it was assembled from. -/
theorem extractRecipeFromPage_ok (url : String) (page : LRPage) (r : LRecipe)
    (h : extractRecipeFromPage url page = .ok r) :
    ∃ (nOpt : Option Json) (si : List String) (sSteps : List Json)
      (nameClean : String),
      nameStructured page.script = .ok nOpt ∧
      ingSectionStructured page.script = .ok si ∧
      insSectionStructured page.script = .ok sSteps ∧
      cleanupName (applyNameFallback page (nOpt.getD (.str ""))) = .ok nameClean ∧
      r.name = nameClean ∧
      r.ingredients = (if si.isEmpty then firstSelectorHit page.ingredientSel
          else si).map cleanStr ∧
      cleanupSteps (if sSteps.isEmpty then
          (firstSelectorHit page.instructionSel).map .str
        else sSteps) = .ok r.instructions ∧
      r.sourceUrl = url := by
  unfold extractRecipeFromPage at h
  cases hn : nameStructured page.script with
  | error e => rw [hn] at h; exact Except.noConfusion h
  | ok nOpt =>
      rw [hn] at h
      dsimp only at h
      cases hi : ingSectionStructured page.script with
      | error e => rw [hi] at h; exact Except.noConfusion h
      | ok si =>
          rw [hi] at h
          dsimp only at h
          cases hs : insSectionStructured page.script with
          | error e => rw [hs] at h; exact Except.noConfusion h
          | ok sSteps =>
              rw [hs] at h
              dsimp only at h
              cases hc : cleanupName (applyNameFallback page
                  (nOpt.getD (.str ""))) with
              | error e => rw [hc] at h; exact Except.noConfusion h
              | ok nameClean =>
                  rw [hc] at h
                  dsimp only at h
                  cases hcs : cleanupSteps (if sSteps.isEmpty then
                      (firstSelectorHit page.instructionSel).map .str
                    else sSteps) with
                  | error e => rw [hcs] at h; exact Except.noConfusion h
                  | ok insClean =>
                      rw [hcs] at h
                      dsimp only at h
                      cases Except.ok.inj h
                      exact ⟨nOpt, si, sSteps, nameClean, rfl, rfl, rfl, hc,
                        rfl, rfl, hcs, rfl⟩

theorem scrapeAndSaveLinks_valid
    (extractF : String → PyResult (Option LRecipe)) :
    ∀ (ls : List String) (acc : List LRecipe),
      (∀ r ∈ acc, r.ingredients ≠ [] ∨ r.instructions ≠ []) →
      ∀ r ∈ scrapeAndSaveLinks extractF acc ls,
        r.ingredients ≠ [] ∨ r.instructions ≠ [] := by
  intro ls
  induction ls with
  | nil => intro acc h; simpa [scrapeAndSaveLinks] using h
  | cons l ls ih =>
      intro acc h
      rw [scrapeAndSaveLinks]
      have hkeep :
          ∀ acc', (∀ r ∈ acc', r.ingredients ≠ [] ∨ r.instructions ≠ []) →
            ∀ r ∈ (if 100 ≤ acc'.length then acc'
                    else scrapeAndSaveLinks extractF acc' ls),
              r.ingredients ≠ [] ∨ r.instructions ≠ [] := by
        intro acc' h' r hr
        split at hr
        · exact h' r hr
        · exact ih acc' h' r hr
      cases hx : extractF l with
      | error e => exact hkeep acc h
      | ok o =>
          cases o with
          | none => exact hkeep acc h
          | some rec =>
              dsimp only
              split
              · rename_i hg
                apply hkeep
                intro r hr
                rcases List.mem_append.mp hr with hr | hr
                · exact h r hr
                · rcases List.mem_singleton.mp hr with rfl
                  simp only [Bool.or_eq_true] at hg
                  rcases hg with hb | hb
                  · left
                    intro hnil
                    rw [hnil] at hb
                    simp at hb
                  · right
                    intro hnil
                    rw [hnil] at hb
                    simp at hb
              · exact hkeep acc h

end ScraperList

/-! ## Claim theorems -/

/-- **C2** (confirmed).  Every `Recipe` record that reaches the output
accumulation has a non-empty (truthy) ingredients sequence or a
non-empty instructions sequence: `scrapermod.parse_recipe` and
`scraper.parse_recipe` return `None` instead of a zero-value record,
and `scrape_and_save` filters a both-empty record out before appending
it, so no zero-value record is ever emitted. -/
theorem C2_output_validity :
    (∀ (url : String) (fetched : Option ScraperMod.SPage)
        (r : ScraperMod.SRecipe),
        ScraperMod.parse_recipe url fetched = some r →
        r.ingredients.truthy = true ∨ r.instructions ≠ []) ∧
    (∀ (url : String) (fetched : Option (Option (PyResult Json)))
        (r : ScraperMod.SRecipe),
        Scraper.parse_recipe url fetched = some r →
        r.ingredients.truthy = true ∨ r.instructions ≠ []) ∧
    (∀ (extractF : String → PyResult (Option ScraperList.LRecipe))
        (links : List String) (r : ScraperList.LRecipe),
        r ∈ ScraperList.scrapeAndSaveLinks extractF [] links →
        r.ingredients ≠ [] ∨ r.instructions ≠ []) := by
  refine ⟨?_, ?_, ?_⟩
  · intro url fetched r h
    exact Or.inl (ScraperMod.parse_recipe_some url fetched r h).1
  · intro url fetched r h
    cases fetched with
    | none => simp [Scraper.parse_recipe] at h
    | some block =>
        rw [Scraper.parse_recipe] at h
        split at h
        · rename_i hg
          cases Option.some.inj h
          simp only [Bool.or_eq_true] at hg
          rcases hg with hb | hb
          · exact Or.inl hb
          · right
            intro hnil
            rw [show (Scraper.parseFields block).2.2 = [] from hnil] at hb
            simp at hb
        · exact absurd h (by simp)
  · intro extractF links r hr
    exact ScraperList.scrapeAndSaveLinks_valid extractF links [] (by simp) r hr

/-- Witness for C2: records produced by the three paths on concrete
pages satisfy the invariant. -/
theorem C2_output_validity_witness :
    ((⟨"w", .str "Lemon Cake", .arr [.str "200g flour", .str "2 eggs"],
        [.str "Mix.", .str "Bake."]⟩ :
        ScraperMod.SRecipe).ingredients.truthy = true ∨
      (⟨"w", .str "Lemon Cake", .arr [.str "200g flour", .str "2 eggs"],
        [.str "Mix.", .str "Bake."]⟩ :
        ScraperMod.SRecipe).instructions ≠ []) ∧
    ((⟨"w2", .str "W2", .arr [.str "z"], []⟩ :
        ScraperMod.SRecipe).ingredients.truthy = true ∨
      (⟨"w2", .str "W2", .arr [.str "z"], []⟩ :
        ScraperMod.SRecipe).instructions ≠ []) ∧
    ((⟨"N", ["i"], [], "u"⟩ : ScraperList.LRecipe).ingredients ≠ [] ∨
      (⟨"N", ["i"], [], "u"⟩ : ScraperList.LRecipe).instructions ≠ []) :=
  ⟨C2_output_validity.1 "w" (some Inputs.fullPage) _ rfl,
   C2_output_validity.2.1 "w2"
     (some (some (.ok (.obj [("@type", .str "Recipe"), ("name", .str "W2"),
       ("recipeIngredient", .arr [.str "z"])])))) _ rfl,
   C2_output_validity.2.2 (fun _ => .ok (some ⟨"N", ["i"], [], "u"⟩)) ["l"] _
     (by simp [ScraperList.scrapeAndSaveLinks])⟩

/-- **C3** (confirmed).  With global cap `maxTotalRecipes = N` the
accumulated output sequence never exceeds length `N`, and once the cap
is reached the remaining links and the remaining sites are skipped
without any further extraction work. -/
theorem C3_global_cap :
    (∀ (N : Nat) (linksF : String → List String)
        (parseF : String → Option ScraperMod.SRecipe) (sites : List String),
        (ScraperMod.mainAccum N linksF parseF sites).length ≤ N) ∧
    (∀ (N : Nat) (parseF : String → Option ScraperMod.SRecipe)
        (acc : List ScraperMod.SRecipe) (ls : List String),
        N ≤ acc.length → ScraperMod.processLinks N parseF acc ls = acc) ∧
    (∀ (N : Nat) (linksF : String → List String)
        (parseF : String → Option ScraperMod.SRecipe)
        (acc : List ScraperMod.SRecipe) (ss : List String),
        N ≤ acc.length → ScraperMod.processSites N linksF parseF acc ss = acc) := by
  refine ⟨?_, ?_, ?_⟩
  · intro N linksF parseF sites
    exact ScraperMod.processSites_length N linksF parseF sites [] (by simp)
  · intro N parseF acc ls h
    exact ScraperMod.processLinks_stop N parseF acc ls h
  · intro N linksF parseF acc ss h
    exact ScraperMod.processSites_stop N linksF parseF acc ss h

/-- Witness for C3 at cap 1 with two sites of two links each, every
link a valid recipe page. -/
theorem C3_global_cap_witness :
    (ScraperMod.mainAccum 1 (fun _ => ["l1", "l2"])
      (fun u => some ⟨u, .str "n", .arr [.str "i"], [.str "s"]⟩)
      ["s1", "s2"]).length ≤ 1 ∧
    ScraperMod.processLinks 1 (fun _ => none)
      [⟨"u", .str "n", .arr [], []⟩] ["l"] = [⟨"u", .str "n", .arr [], []⟩] ∧
    ScraperMod.processSites 1 (fun _ => ["l"]) (fun _ => none)
      [⟨"u", .str "n", .arr [], []⟩] ["s"] = [⟨"u", .str "n", .arr [], []⟩] :=
  ⟨C3_global_cap.1 1 _ _ _,
   C3_global_cap.2.1 1 _ _ _ (by simp),
   C3_global_cap.2.2 1 _ _ _ _ (by simp)⟩

/-- **C7** (corrected).  Failure containment as implemented: a raised
GET, a 4xx/5xx status or a non-HTML content-type make `make_request`
return `None`; a `None` fetch makes `get_links` return `[]` (Seen-URL
Set untouched) and `parse_recipe` return `None`; a JSON-LD payload on
which parsing raised is skipped.  (The claim's "non-2xx" had to be
weakened to "4xx/5xx": see `C7_counterexample` for a non-2xx status
that passes through.) -/
theorem C7_failure_containment :
    (∀ (β : Type) (T : ScraperMod.Timers) (R : ℚ) (url : String)
        (now e : ℚ),
        (ScraperMod.make_request (β := β) T R url now none e).result = none) ∧
    (∀ (β : Type) (T : ScraperMod.Timers) (R : ℚ) (url : String)
        (now : ℚ) (r : ScraperMod.HttpResponse β) (e : ℚ),
        400 ≤ r.status → r.status < 600 →
        (ScraperMod.make_request T R url now (some r) e).result = none) ∧
    (∀ (β : Type) (T : ScraperMod.Timers) (R : ℚ) (url : String)
        (now : ℚ) (r : ScraperMod.HttpResponse β) (e : ℚ),
        strContains (lowerStr r.contentType) "text/html" = false →
        (ScraperMod.make_request T R url now (some r) e).result = none) ∧
    (∀ (u : String) (m : Nat) (s : List String),
        ScraperMod.get_links u none m s = ([], s)) ∧
    (∀ u : String, ScraperMod.parse_recipe u none = none) ∧
    (∀ (r : ScraperMod.SRecipe) (e : Unit) (rest : List (PyResult Json)),
        ScraperMod.parseBlocksLoop r (.error e :: rest)
          = ScraperMod.parseBlocksLoop r rest) := by
  refine ⟨?_, ?_, ?_, ?_, ?_, ?_⟩
  · intro β T R url now e; rfl
  · intro β T R url now r e h1 h2
    exact ScraperMod.make_request_result_status T R url now r e h1 h2
  · intro β T R url now r e h
    exact ScraperMod.make_request_result_ctype T R url now r e h
  · intro u m s; rfl
  · intro u; rfl
  · intro r e rest; rfl

/-- Witness for C7: a 404 response and a JSON response are both turned
into `None`. -/
theorem C7_failure_containment_witness :
    (400 ≤ 404 ∧ 404 < 600) ∧
    (ScraperMod.make_request (β := Unit) (fun _ => none) 2 "http://e.com/" 0
      (some ⟨404, "text/html", ()⟩) 1).result = none ∧
    strContains (lowerStr "application/json") "text/html" = false ∧
    (ScraperMod.make_request (β := Unit) (fun _ => none) 2 "http://e.com/" 0
      (some ⟨200, "application/json", ()⟩) 1).result = none :=
  ⟨by decide,
   C7_failure_containment.2.1 Unit (fun _ => none) 2 "http://e.com/" 0
     ⟨404, "text/html", ()⟩ 1 (by decide) (by decide),
   by decide,
   C7_failure_containment.2.2.1 Unit (fun _ => none) 2 "http://e.com/" 0
     ⟨200, "application/json", ()⟩ 1 (by decide)⟩

/-- Counterexample to C7 as stated: a non-2xx status is not always
treated as a failed fetch.  A 304 response with an HTML content type
passes `raise_for_status` (which rejects only 4xx/5xx), so
`make_request` returns it and the Discoverer extracts links from its
body instead of yielding an empty sequence. -/
theorem C7_counterexample :
    ¬(200 ≤ 304 ∧ 304 < 300) ∧
    (ScraperMod.make_request (fun _ => none) 2 "http://example.com/" 0
        (some ⟨304, "text/html", Inputs.oneLinkPage⟩) 1).result
      = some ⟨304, "text/html", Inputs.oneLinkPage⟩ ∧
    (ScraperMod.get_links "http://example.com/"
        ((ScraperMod.make_request (fun _ => none) 2 "http://example.com/" 0
          (some ⟨304, "text/html", Inputs.oneLinkPage⟩) 1).result.map
          (fun r => r.body)) 5 []).1
      = ["http://example.com/recipes/42-lemon-cake"] :=
  ⟨by decide, rfl, rfl⟩

/-- Counterexample to C4 as stated: when the first Discoverer call
stops early at the `max_links` cap, a second call on the very same
seed document returns a **new** link (a candidate beyond the first
call's cutoff), not an empty addition. -/
theorem C4_counterexample :
    (ScraperMod.get_links "http://example.com/" (some Inputs.twoLinkPage) 1
        []).1 = ["http://example.com/recipe1"] ∧
    (ScraperMod.get_links "http://example.com/" (some Inputs.twoLinkPage) 1
        (ScraperMod.get_links "http://example.com/" (some Inputs.twoLinkPage)
          1 []).2).1
      = ["http://example.com/recipe2"] :=
  ⟨rfl, rfl⟩

/-- **C4** (corrected).  The Discoverer is idempotent with respect to
the Seen-URL Set **provided the first call did not stop early at the
cap**: if the first call returned fewer than `max_links` links (so it
traversed the whole document), a second call on the same seed document
yields no links at all — every candidate is suppressed by the set. -/
theorem C4_idempotent_when_uncapped :
    ∀ (u : String) (p : ScraperMod.LinkPage) (m : Nat) (s0 : List String),
      (ScraperMod.get_links u (some p) m s0).1.length < m →
      (ScraperMod.get_links u (some p) m
        (ScraperMod.get_links u (some p) m s0).2).1 = [] := by
  intro u p m s0 hlen
  have hdef : ∀ s : List String,
      ScraperMod.get_links u (some p) m s
        = ScraperMod.getLinksLoop u (ScraperMod.normalize_domain u) m
            p.anchors [] s := fun s => rfl
  rw [hdef] at hlen
  rw [hdef, hdef]
  rw [ScraperMod.getLinksLoop_suppressed u (ScraperMod.normalize_domain u) m
    p.anchors _ (fun a ha hacc =>
      ScraperMod.getLinksLoop_no_break_mem u (ScraperMod.normalize_domain u)
        m p.anchors [] s0 hlen a ha hacc)]

/-- Witness for C4: a one-link document under cap 5 — the first call
finds the link, the second call finds nothing. -/
theorem C4_idempotent_when_uncapped_witness :
    (ScraperMod.get_links "http://example.com/" (some Inputs.oneLinkPage) 5
        []).1.length < 5 ∧
    (ScraperMod.get_links "http://example.com/" (some Inputs.oneLinkPage) 5
        (ScraperMod.get_links "http://example.com/" (some Inputs.oneLinkPage)
          5 []).2).1 = [] :=
  ⟨by decide,
   C4_idempotent_when_uncapped "http://example.com/" Inputs.oneLinkPage 5 []
     (by decide)⟩

/-- Counterexample to C5 as stated: `scraper.get_links` (and likewise
`get_recipe_links`) checks the seed's host with a **substring** test
(`domain in href`), so an anchor on host `notexample.com` — which
contains `example.com` as a substring — is emitted for seed
`example.com`, a cross-domain candidate. -/
theorem C5_counterexample :
    Scraper.get_links "http://example.com/" (some Inputs.foreignPage) 5
      = ["https://notexample.com/recipes"] ∧
    ScraperMod.normalize_domain "https://notexample.com/recipes"
      ≠ ScraperMod.normalize_domain "http://example.com/" :=
  ⟨rfl, by decide⟩

/-- **C5** (corrected).  In `scrapermod.get_links` the claim holds:
every link in the Discoverer's output has a resolved normalized host
equal to the seed's normalized host, for any input document (the loop
filters on host equality).  The substring-based variants
(`scraper.get_links`, `get_recipe_links`) do not guarantee it. -/
theorem C5_same_host_scrapermod :
    ∀ (u : String) (fetched : Option ScraperMod.LinkPage) (m : Nat)
      (s0 : List String) (link : String),
      link ∈ (ScraperMod.get_links u fetched m s0).1 →
      ScraperMod.normalize_domain link = ScraperMod.normalize_domain u := by
  intro u fetched m s0 link hl
  cases fetched with
  | none => simp [ScraperMod.get_links] at hl
  | some p =>
      exact ScraperMod.getLinksLoop_links_domain u _ m p.anchors [] s0
        (by simp) link hl

/-- Witness for C5 on the spec's end-to-end example document. -/
theorem C5_same_host_scrapermod_witness :
    ScraperMod.normalize_domain "http://example.com/recipes/42-lemon-cake"
      = ScraperMod.normalize_domain "http://example.com/" :=
  C5_same_host_scrapermod "http://example.com/" (some Inputs.oneLinkPage) 5 []
    "http://example.com/recipes/42-lemon-cake" (by decide)

/-- Counterexample to C6 as stated: two consecutive `make_request`
calls to the same host are **not** always separated by the rate limit.
When the first call's GET raises at the transport level, no timestamp
is recorded, and a second call one time-unit later proceeds
immediately — separation 1 < rateLimit 2. -/
theorem C6_counterexample :
    (ScraperMod.make_request (β := Unit) (fun _ => none) 2
        "http://example.com/" 0 none 0).grant = 0 ∧
    (ScraperMod.make_request (β := Unit)
        ((ScraperMod.make_request (β := Unit) (fun _ => none) 2
          "http://example.com/" 0 none 0).timers)
        2 "http://example.com/" 1 none 1).grant = 1 ∧
    (1 : ℚ) - 0 < 2 :=
  ⟨rfl, rfl, by norm_num⟩

/-- **C6** (corrected).  When the first request's GET **returns** (so
its host timer is written), the next `make_request` to the same host
is granted no earlier than `rateLimit` after the first grant — the
caller sleeps for the remaining delta; and the grant of a call depends
only on the timer entry of its own normalized host, so a call for one
host is never delayed by the timer of a different host. -/
theorem C6_rate_limit_separation :
    (∀ (β : Type) (T : ScraperMod.Timers) (R : ℚ) (url : String)
        (r1 : ScraperMod.HttpResponse β) (now1 end1 now2 : ℚ)
        (o2 : Option (ScraperMod.HttpResponse β)) (end2 : ℚ),
        (ScraperMod.make_request T R url now1 (some r1) end1).grant ≤ end1 →
        end1 ≤ now2 →
        (ScraperMod.make_request T R url now1 (some r1) end1).grant + R ≤
          (ScraperMod.make_request
            ((ScraperMod.make_request T R url now1 (some r1) end1).timers)
            R url now2 o2 end2).grant) ∧
    (∀ (β : Type) (T1 T2 : ScraperMod.Timers) (R : ℚ) (url : String)
        (now : ℚ) (o : Option (ScraperMod.HttpResponse β)) (e : ℚ),
        T1 (ScraperMod.normalize_domain url)
          = T2 (ScraperMod.normalize_domain url) →
        (ScraperMod.make_request T1 R url now o e).grant
          = (ScraperMod.make_request T2 R url now o e).grant) := by
  constructor
  · intro β T R url r1 now1 end1 now2 o2 end2 hg he
    rw [ScraperMod.make_request_grant] at hg ⊢
    rw [ScraperMod.make_request_timers_some]
    rw [ScraperMod.make_request_grant]
    rw [ScraperMod.acquireGrant_update_self]
    split
    · linarith
    · rename_i hge
      rw [not_lt] at hge
      linarith
  · intro β T1 T2 R url now o e hT
    rw [ScraperMod.make_request_grant, ScraperMod.make_request_grant]
    unfold ScraperMod.acquireGrant
    rw [hT]

/-- Witness for C6: a successful first request at `now = 0` (GET
returns at 1) followed by a second call at `now = 1` is granted only
at instant 3 = 1 + rateLimit. -/
theorem C6_rate_limit_separation_witness :
    (ScraperMod.make_request (β := Unit) (fun _ => none) 2
        "http://example.com/" 0 (some ⟨200, "text/html", ()⟩) 1).grant ≤ 1 ∧
    (1 : ℚ) ≤ 1 ∧
    (ScraperMod.make_request (β := Unit) (fun _ => none) 2
        "http://example.com/" 0 (some ⟨200, "text/html", ()⟩) 1).grant + 2 ≤
      (ScraperMod.make_request (β := Unit)
        ((ScraperMod.make_request (β := Unit) (fun _ => none) 2
          "http://example.com/" 0 (some ⟨200, "text/html", ()⟩) 1).timers)
        2 "http://example.com/" 1 none 5).grant :=
  ⟨by simp [ScraperMod.make_request_grant, ScraperMod.acquireGrant],
   le_refl 1,
   C6_rate_limit_separation.1 Unit (fun _ => none) 2 "http://example.com/"
     ⟨200, "text/html", ()⟩ 0 1 1 none 5
     (by simp [ScraperMod.make_request_grant, ScraperMod.acquireGrant])
     (le_refl 1)⟩

/-- Counterexample to C1 as stated: on a page whose JSON-LD `Recipe`
yields a non-empty ingredient list but an empty instruction list,
`extract_recipe_data` does **not** discard the partial structured
match: it keeps the structured ingredients and fills the instructions
from the heuristic selector path, producing a mixed record. -/
theorem C1_counterexample :
    ScraperList.extractRecipeFromPage "u" Inputs.mixPage
      = .ok { name := "Cake", ingredients := ["flour"],
              instructions := ["Do it"], sourceUrl := "u" } ∧
    ScraperList.ingSectionStructured Inputs.mixPage.script = .ok ["flour"] ∧
    ScraperList.insSectionStructured Inputs.mixPage.script = .ok [] ∧
    ScraperList.firstSelectorHit Inputs.mixPage.instructionSel = ["Do it"] :=
  ⟨rfl, rfl, rfl, rfl⟩

/-- **C1** (corrected).  The all-or-nothing acceptance rule holds only
in `scrapermod.parse_recipe`: a structured result is returned only
when both sequences are non-empty, and a partial match makes the
extractor return absent (that module has no heuristic path at all).
In `extract_recipe_data`, fallback is per field: a non-empty
structured ingredient list is kept, and when the structured
instructions are empty the instruction field is filled from the
heuristic selectors — structured and heuristic lists can be mixed in
one record. -/
theorem C1_structured_acceptance :
    (∀ (url : String) (fetched : Option ScraperMod.SPage)
        (r : ScraperMod.SRecipe),
        ScraperMod.parse_recipe url fetched = some r →
        r.ingredients.truthy = true ∧ r.instructions ≠ []) ∧
    (∀ (url : String) (page : ScraperList.LRPage) (r : ScraperList.LRecipe)
        (si : List String),
        ScraperList.extractRecipeFromPage url page = .ok r →
        ScraperList.ingSectionStructured page.script = .ok si → si ≠ [] →
        r.ingredients = si.map ScraperList.cleanStr ∧
        (ScraperList.insSectionStructured page.script = .ok [] →
          r.instructions = (ScraperList.firstSelectorHit
            page.instructionSel).map ScraperList.cleanStr)) := by
  constructor
  · intro url fetched r h
    exact ScraperMod.parse_recipe_some url fetched r h
  · intro url page r si h hsi hne
    obtain ⟨nOpt, si', sSteps, nameClean, hn, hi, hs, hc, hname, hing, hsteps,
      hurl⟩ := ScraperList.extractRecipeFromPage_ok url page r h
    rw [hsi] at hi
    cases Except.ok.inj hi
    have hempty : si.isEmpty = false := by
      cases si with
      | nil => exact absurd rfl hne
      | cons x xs => rfl
    constructor
    · rw [hing, hempty]
      simp
    · intro hins0
      rw [hins0] at hs
      cases Except.ok.inj hs
      rw [show (([] : List Json).isEmpty) = true from rfl] at hsteps
      rw [if_pos rfl] at hsteps
      rw [ScraperList.cleanupSteps_map_str] at hsteps
      exact (Except.ok.inj hsteps).symm

/-- Witness for C1 on a second partial-structured page. -/
theorem C1_structured_acceptance_witness :
    (⟨"Pie", ["egg", "salt"], ["Whisk", "Bake"], "w1"⟩ :
        ScraperList.LRecipe).ingredients
      = (["egg", "salt"].map ScraperList.cleanStr) ∧
    (ScraperList.insSectionStructured Inputs.mixPage2.script = .ok [] →
      (⟨"Pie", ["egg", "salt"], ["Whisk", "Bake"], "w1"⟩ :
          ScraperList.LRecipe).instructions
        = (ScraperList.firstSelectorHit Inputs.mixPage2.instructionSel).map
            ScraperList.cleanStr) :=
  C1_structured_acceptance.2 "w1" Inputs.mixPage2 _ ["egg", "salt"] rfl rfl
    (by decide)

/-- Counterexample to C8 as stated: `scrapermod.parse_recipe` finalizes
a record whose `name` is the empty string when the structured item has
neither `name` nor `headline` — no sentinel is substituted there. -/
theorem C8_counterexample :
    ScraperMod.parse_recipe "u" (some Inputs.noNamePage)
      = some { sourceUrl := "u", name := .str "", ingredients := .arr [.str "x"],
               instructions := [.str "y"] } ∧
    (Json.str "").truthy = false :=
  ⟨rfl, rfl⟩

/-- **C8** (corrected).  The sentinel rule holds for
`extract_recipe_data`: every record it returns has a non-empty name
(`'Unknown Recipe Name'` when nothing resolved).  The records of
`scrapermod.parse_recipe` (and `scraper.parse_recipe`) can carry an
empty name. -/
theorem C8_name_sentinel :
    ∀ (url : String) (fetched : Option ScraperList.LRPage)
      (r : ScraperList.LRecipe),
      ScraperList.extract_recipe_data url fetched = .ok (some r) →
      r.name ≠ "" := by
  intro url fetched r h
  cases fetched with
  | none => simp [ScraperList.extract_recipe_data] at h
  | some page =>
      rw [ScraperList.extract_recipe_data] at h
      cases hx : ScraperList.extractRecipeFromPage url page with
      | error e => rw [hx] at h; exact Except.noConfusion h
      | ok r0 =>
          rw [hx] at h
          have : r0 = r := by
            have h' := Except.ok.inj h
            exact Option.some.inj h'
          subst this
          obtain ⟨nOpt, si, sSteps, nameClean, _, _, _, hc, hname, _, _, _⟩ :=
            ScraperList.extractRecipeFromPage_ok url page r0 hx
          rw [hname]
          exact ScraperList.cleanupName_ok _ _ hc

/-- Witness for C8 on a heuristic-only page whose `h1` provides the
name. -/
theorem C8_name_sentinel_witness :
    (⟨"Tarte", ["i1"], [], "u"⟩ : ScraperList.LRecipe).name ≠ "" :=
  C8_name_sentinel "u" (some Inputs.heurPage) _ rfl

/-- Counterexample to C9 as stated: (i) `extract_recipe_data` keeps an
empty-after-trim ingredient string (`' \n '` becomes `''` and stays in
the list, a placeholder); (ii) `scrapermod.parse_recipe` copies
structured strings verbatim — an embedded newline survives in the
returned record. -/
theorem C9_counterexample :
    ScraperList.extractRecipeFromPage "u" Inputs.wsPage
      = .ok { name := "P", ingredients := ["flour", ""],
              instructions := ["Mix"], sourceUrl := "u" } ∧
    ScraperMod.parse_recipe "v" (some Inputs.nlPage)
      = some { sourceUrl := "v", name := .str "N",
               ingredients := .arr [.str "a\nb"],
               instructions := [.str "step"] } ∧
    '\n' ∈ "a\nb".data :=
  ⟨rfl, rfl, by decide⟩

/-- **C9** (corrected).  In `extract_recipe_data` every output string
is the newline-collapsed, trimmed image (`cleanStr`) of its source
string, but the cleanup preserves list length — an empty-after-trim
string is retained, not excluded; `scrapermod.parse_recipe` applies no
normalization at all. -/
theorem C9_cleanup_behaviour :
    (∀ (url : String) (page : ScraperList.LRPage) (r : ScraperList.LRecipe)
        (si : List String),
        ScraperList.extractRecipeFromPage url page = .ok r →
        ScraperList.ingSectionStructured page.script = .ok si →
        r.ingredients = (if si.isEmpty then
            ScraperList.firstSelectorHit page.ingredientSel
          else si).map ScraperList.cleanStr) ∧
    (∀ l : List String,
        ScraperList.cleanupSteps (l.map Json.str)
          = .ok (l.map ScraperList.cleanStr)) ∧
    (∀ xs : List String, (xs.map ScraperList.cleanStr).length = xs.length) ∧
    (∀ s : String, '\n' ∉ (ScraperList.cleanStr s).data) := by
  refine ⟨?_, ScraperList.cleanupSteps_map_str, ?_, ?_⟩
  · intro url page r si h hsi
    obtain ⟨nOpt, si', sSteps, nameClean, hn, hi, hs, hc, hname, hing, hsteps,
      hurl⟩ := ScraperList.extractRecipeFromPage_ok url page r h
    rw [hsi] at hi
    cases Except.ok.inj hi
    exact hing
  · intro xs
    simp
  · intro s hmem
    have hsub : ∀ l : List Char, stripList l ⊆ l := by
      intro l c hc
      unfold stripList at hc
      rw [List.mem_reverse] at hc
      have h1 := (List.dropWhile_sublist
        (l := (l.dropWhile isWS).reverse) (p := isWS)).subset hc
      rw [List.mem_reverse] at h1
      exact (List.dropWhile_sublist (l := l) (p := isWS)).subset h1
    have h2 : '\n' ∈ (nlToSpace s).data := hsub _ hmem
    rw [nlToSpace] at h2
    rcases List.mem_map.mp h2 with ⟨c, _, hc⟩
    by_cases hcn : c = '\n'
    · rw [if_pos hcn] at hc
      exact absurd hc (by decide)
    · rw [if_neg hcn] at hc
      exact hcn hc

/-- Witness for C9: the cleanup image of the whitespace page's
structured ingredient list, empty string retained. -/
theorem C9_cleanup_behaviour_witness :
    (⟨"P", ["flour", ""], ["Mix"], "u"⟩ : ScraperList.LRecipe).ingredients
      = (if (["flour", ""] : List String).isEmpty then
          ScraperList.firstSelectorHit Inputs.wsPage.ingredientSel
        else ["flour", ""]).map ScraperList.cleanStr :=
  C9_cleanup_behaviour.1 "u" Inputs.wsPage _ ["flour", ""] rfl rfl

/-- **C10** (confirmed).  The Host Timer State is unchanged when the
GET itself raises; it is written (to the GET-return instant) whenever
the GET returns a response, including responses later rejected for
status or content-type; hence a transport-level failure leaves the
rate-limit clock of its host — and the delay of the next call — exactly
as before. -/
theorem C10_timer_untouched_on_transport_failure :
    (∀ (β : Type) (T : ScraperMod.Timers) (R : ℚ) (url : String)
        (now e : ℚ),
        (ScraperMod.make_request (β := β) T R url now none e).timers = T) ∧
    (∀ (β : Type) (T : ScraperMod.Timers) (R : ℚ) (url : String)
        (now : ℚ) (r : ScraperMod.HttpResponse β) (e : ℚ),
        (ScraperMod.make_request T R url now (some r) e).timers
          = ScraperMod.updateTimer T (ScraperMod.normalize_domain url) e) ∧
    (∀ (β : Type) (T : ScraperMod.Timers) (R : ℚ) (url : String)
        (now e R2 now2 : ℚ),
        ScraperMod.acquireGrant
            ((ScraperMod.make_request (β := β) T R url now none e).timers)
            R2 (ScraperMod.normalize_domain url) now2
          = ScraperMod.acquireGrant T R2 (ScraperMod.normalize_domain url)
              now2) := by
  refine ⟨?_, ?_, ?_⟩
  · intro β T R url now e; rfl
  · intro β T R url now r e
    exact ScraperMod.make_request_timers_some T R url now r e
  · intro β T R url now e R2 now2; rfl

end RecipeScraper
